import Mathlib

/-!
Verification development for the `captain` deployment orchestrator.

The repository is a small Rust CLI that resolves a program version and
on-disk artifact paths, then drives `solana` / `anchor` subprocesses
through fixed deploy and upgrade pipelines, copying final artifacts into
a version-addressed archive.

The embedding below is a shallow model of the source files:
  * `src/config.rs`    : `Network`, `Config`, `ArtifactPaths`, path helpers;
  * `src/workspace.rs` : `get_program_version`, `get_deploy_version`,
                         `check_and_get_program_paths`;
  * `src/command.rs`   : the spawn-and-abort-on-nonzero pattern (`exec`);
  * `src/main.rs`      : the `Deploy` and `Upgrade` branches of
                         `main_with_result`, modelled as `runDeploy` and
                         `runUpgrade` over an explicit `World` containing
                         the filesystem, the environment variable, and an
                         oracle for subprocess outcomes.

Filesystem paths are lists of components, as produced by successive
`PathBuf::join` calls; process side effects (stdout headers aside, the
semantically relevant `println!` lines are kept in a log) are threaded
through an explicit state.
-/

namespace Captain

/-- A filesystem path, as the list of components accumulated by
`PathBuf::join`.  A leading `"."` component corresponds to a Rust
`Component::CurDir`. -/
abbrev FPath := List String

/-- Concatenation of strings with a separator (an executable stand-in for
`String.intercalate` that the kernel can evaluate). -/
def joinSep (sep : String) : List String → String
  | [] => ""
  | [x] => x
  | x :: xs => x ++ sep ++ joinSep sep xs

/-- Rendering of a path, matching `Path::display` for the simple relative
paths this tool builds (components joined by `/`). -/
def pathStr (p : FPath) : String := joinSep "/" p

/-- Two paths denote the same filesystem location when they agree after
dropping `CurDir` (`"."`) components. -/
def normalizePath (p : FPath) : FPath := p.filter (fun s => decide (s ≠ "."))

/-- Splitting a character list at every occurrence of a separator. -/
def splitOnCharAux (sep : Char) : List Char → List (List Char)
  | [] => [[]]
  | c :: cs =>
    match splitOnCharAux sep cs with
    | [] => [[]]
    | h :: t => if c = sep then [] :: h :: t else (c :: h) :: t

/-- Splitting a string at every occurrence of a separator character
(`str::split` on a one-character pattern). -/
def splitChar (sep : Char) (s : String) : List String :=
  (splitOnCharAux sep s.data).map String.mk

/-- Splitting a textual path into components, modelling `PathBuf::from`
on the simple relative path strings appearing in the configuration. -/
def parsePath (s : String) : FPath := splitChar '/' s

/-- Mirror of `semver::Version`: numeric core plus optional prerelease and
build identifier lists. -/
structure Version where
  major : Nat
  minor : Nat
  patch : Nat
  pre : List String
  build : List String
deriving DecidableEq, Repr

/-- Display of a version, mirroring the `semver` crate. -/
def Version.toString (v : Version) : String :=
  Nat.repr v.major ++ "." ++ Nat.repr v.minor ++ "." ++ Nat.repr v.patch
    ++ (if v.pre.isEmpty then "" else "-" ++ joinSep "." v.pre)
    ++ (if v.build.isEmpty then "" else "+" ++ joinSep "." v.build)

/-- Decimal value of a nonempty all-digit character list. -/
def digitsVal (l : List Char) : Nat :=
  l.foldl (fun n c => n * 10 + (c.toNat - 48)) 0

/-- A numeric identifier in a semver core: decimal digits with no leading
zero. -/
def parseNumId (s : String) : Option Nat :=
  match s.data with
  | [] => none
  | c :: cs =>
    if (c :: cs).all Char.isDigit then
      if c = '0' ∧ cs ≠ [] then none else some (digitsVal (c :: cs))
    else none

/-- Characters allowed in prerelease and build identifiers. -/
def isIdentChar (c : Char) : Bool := c.isAlphanum || c == '-'

/-- A valid prerelease identifier: nonempty, alphanumeric or hyphen, and
purely numeric identifiers have no leading zero. -/
def validPreId (s : String) : Bool :=
  match s.data with
  | [] => false
  | c :: cs =>
    (c :: cs).all isIdentChar &&
      (!((c :: cs).all Char.isDigit) || cs.isEmpty || !(c == '0'))

/-- A valid build identifier: nonempty, alphanumeric or hyphen. -/
def validBuildId (s : String) : Bool :=
  !s.data.isEmpty && s.data.all isIdentChar

/-- Parse of the part of a semver string before any `+`, given already
validated build identifiers. -/
def parseCorePre (s : String) (build : List String) : Option Version :=
  match splitChar '-' s with
  | [] => none
  | core :: preParts =>
    let pre :=
      if preParts.isEmpty then []
      else splitChar '.' (joinSep "-" preParts)
    if preParts.isEmpty || pre.all validPreId then
      match splitChar '.' core with
      | [ma, mi, pa] =>
        match parseNumId ma, parseNumId mi, parseNumId pa with
        | some a, some b, some c => some ⟨a, b, c, pre, build⟩
        | _, _, _ => none
      | _ => none
    else none

/-- Mirror of `semver::Version::parse`: `major.minor.patch` with optional
`-prerelease` and `+build` suffixes; `none` on any syntax violation. -/
def Version.parse (s : String) : Option Version :=
  match splitChar '+' s with
  | [core] => parseCorePre core []
  | [core, build] =>
    let bids := splitChar '.' build
    if bids.all validBuildId then parseCorePre core bids else none
  | _ => none

/-- Mirror of `cargo_toml` package metadata: only the declared version
string is relevant here. -/
structure Package where
  version : String
deriving DecidableEq, Repr

/-- Mirror of `cargo_toml::Manifest`: the optional `[package]` section. -/
structure Manifest where
  package : Option Package
deriving DecidableEq, Repr

/-- The filesystem as observed by the tool: existing files, existing
directories, and the parseable Cargo manifests among the files.  A path
absent from `manifests` models both a missing file and a file
`cargo_toml` fails to parse. -/
structure FS where
  files : List FPath
  dirs : List FPath
  manifests : List (FPath × Manifest)
deriving DecidableEq, Repr

/-- `Path::exists`. -/
def FS.pathExists (fs : FS) (p : FPath) : Prop := p ∈ fs.files ∨ p ∈ fs.dirs

instance (fs : FS) (p : FPath) : Decidable (fs.pathExists p) :=
  inferInstanceAs (Decidable (p ∈ fs.files ∨ p ∈ fs.dirs))

/-- Result of `Manifest::from_path` at a path. -/
def FS.manifestAt (fs : FS) (p : FPath) : Option Manifest :=
  (fs.manifests.find? (fun e => e.1 == p)).map (fun e => e.2)

/-- Creation of a file (used for the temporary buffer keypair and for the
destination of a successful `cp`). -/
def FS.addFile (fs : FS) (p : FPath) : FS := { fs with files := fs.files ++ [p] }

/-- Removal of a file (the `NamedTempFile` destructor). -/
def FS.removeFile (fs : FS) (p : FPath) : FS := { fs with files := fs.files.erase p }

/-- `fs::create_dir_all` (modelled as always succeeding). -/
def FS.addDir (fs : FS) (p : FPath) : FS := { fs with dirs := fs.dirs ++ [p] }

/-- Mirror of `config.rs` `Network`. -/
inductive Network
  | testnet
  | mainnet
  | devnet
  | localnet
  | debug
deriving DecidableEq, Repr

/-- Lowercase display of a network name (strum `serialize_all = "lowercase"`). -/
def Network.toString : Network → String
  | .testnet => "testnet"
  | .mainnet => "mainnet"
  | .devnet => "devnet"
  | .localnet => "localnet"
  | .debug => "debug"

/-- Mirror of `config.rs` `Network::url`. -/
def Network.url : Network → String
  | .devnet => "https://api.devnet.solana.com"
  | .testnet => "https://api.testnet.solana.com"
  | .mainnet => "https://api.mainnet-beta.solana.com"
  | .localnet => "http://127.0.0.1:8899"
  | .debug => "http://34.90.18.145:8899"

/-- Mirror of `config.rs` `NetworkConfig` (paths already tilde-expanded). -/
structure NetworkConfig where
  deployer : FPath
  upgrade_authority : String
  url : Option String
  ws_url : Option String
deriving DecidableEq, Repr

/-- Mirror of `config.rs` `Paths`. -/
structure ConfigPaths where
  artifacts : FPath
  program_keypairs : FPath
deriving DecidableEq, Repr

/-- Mirror of `config.rs` `Config`; the `BTreeMap` of networks becomes an
association list with unique keys. -/
structure Config where
  paths : ConfigPaths
  networks : List (Network × NetworkConfig)
deriving DecidableEq, Repr

/-- Mirror of `config.rs` `ArtifactPaths`. -/
structure ArtifactPaths where
  root : FPath
  bin : FPath
  idl : FPath
deriving DecidableEq, Repr

/-- Mirror of `ArtifactPaths::exist`: either destination file already
present signals the version as already archived. -/
def ArtifactPaths.exist (ap : ArtifactPaths) (fs : FS) : Prop :=
  fs.pathExists ap.bin ∨ fs.pathExists ap.idl

instance (ap : ArtifactPaths) (fs : FS) : Decidable (ap.exist fs) :=
  inferInstanceAs (Decidable (fs.pathExists ap.bin ∨ fs.pathExists ap.idl))

/-- Error taxonomy of the tool; each constructor corresponds to one
`anyhow!` / `format_err!` site in the source. -/
inductive Err
  | binPathMissing (p : FPath)
  | idlPathMissing (p : FPath)
  | idPathMissing (p : FPath)
  | deployerMissing (p : FPath)
  | manifestNotFoundMain
  | manifestNotFound (p1 p2 : FPath)
  | invalidPackage
  | invalidVersion (s : String)
  | networkNotFound (n : Network)
  | configNotFound
  | keypairUnreadable (p : FPath)
  | mustSetUpgradeAuthority
  | alreadyArchived
  | ioError (msg : String)
  | writeKeypairFailed
deriving DecidableEq, Repr

/-- The human-readable message printed for each error, following the
format strings in the source (the `invalidVersion` text stands in for the
message produced by the `semver` library). -/
def Err.render : Err → String
  | .binPathMissing p => "Program bin path " ++ pathStr p ++ " does not exist"
  | .idlPathMissing p => "Program idl path " ++ pathStr p ++ " does not exist"
  | .idPathMissing p => "Program id path " ++ pathStr p ++ " does not exist"
  | .deployerMissing p => "Deployer path " ++ pathStr p ++ " does not exist"
  | .manifestNotFoundMain => "Program Cargo.toml not found"
  | .manifestNotFound p1 p2 =>
      "Program Cargo.toml not found at paths " ++ pathStr p1 ++ " or " ++ pathStr p2
  | .invalidPackage => "invalid package"
  | .invalidVersion s => "invalid semver string " ++ s
  | .networkNotFound n => "network " ++ n.toString ++ " not found"
  | .configNotFound => "Cargo.toml and Fleet.toml not found"
  | .keypairUnreadable p => "could not read kp file " ++ pathStr p
  | .mustSetUpgradeAuthority => "Must set UPGRADE_AUTHORITY_KEYPAIR environment variable."
  | .alreadyArchived =>
      "Program artifacts already exist for this version. Make sure to bump your Cargo.toml."
  | .ioError msg => "Error deploying: " ++ msg
  | .writeKeypairFailed => "could not generate temp buffer keypair"

/-- Mirror of `Config::network_config`. -/
def Config.network_config (c : Config) (network : Network) : Except Err NetworkConfig :=
  match c.networks.find? (fun e => e.1 == network) with
  | some e => .ok e.2
  | none => .error (.networkNotFound network)

/-- Mirror of `Config::program_kp_path`:
`<program_keypairs>/<program>-<major>.x.json`. -/
def Config.program_kp_path (c : Config) (version : Version) (program : String) : FPath :=
  c.paths.program_keypairs ++ [program ++ "-" ++ Nat.repr version.major ++ ".x.json"]

/-- Mirror of `Config::artifact_paths`: root `<artifacts>/<program>/<version>`
with `program.so` and `idl.json` beneath it.  The computation takes no
filesystem argument: it performs no existence check. -/
def Config.artifact_paths (c : Config) (version : Version) (program : String) : ArtifactPaths :=
  let root := c.paths.artifacts ++ [program, version.toString]
  { root := root, bin := root ++ ["program.so"], idl := root ++ ["idl.json"] }

/-- Mirror of `workspace.rs` `ProgramPaths`. -/
structure ProgramPaths where
  bin : FPath
  idl : FPath
  id : FPath
deriving DecidableEq, Repr

/-- The program name with underscores replaced by hyphens
(`str::replace` specialised to the one-character pattern used in
`workspace.rs`). -/
def underscoreToHyphen (s : String) : String :=
  String.mk (s.data.map (fun c => if c = '_' then '-' else c))

/-- Mirror of `workspace.rs` `get_program_version`: prefer
`root/programs/<program>/Cargo.toml`, fall back to the program name with
underscores replaced by hyphens when that file does not exist, then parse
the declared package version. -/
def get_program_version (fs : FS) (program : String) (root : FPath) : Except Err Version :=
  let mf_path := root ++ ["programs", program, "Cargo.toml"]
  let program_manifest_path :=
    if fs.pathExists mf_path then mf_path
    else root ++ ["programs", underscoreToHyphen program, "Cargo.toml"]
  match fs.manifestAt program_manifest_path with
  | none => .error (.manifestNotFound mf_path program_manifest_path)
  | some m =>
    match m.package with
    | none => .error .invalidPackage
    | some pkg =>
      match Version.parse pkg.version with
      | none => .error (.invalidVersion pkg.version)
      | some v => .ok v

/-- Mirror of `workspace.rs` `get_deploy_version`: an explicit version is
returned unchanged, otherwise the manifest is consulted. -/
def get_deploy_version (fs : FS) (program : String) (root : FPath)
    (version : Option Version) : Except Err Version :=
  match version with
  | some v => .ok v
  | none => get_program_version fs program root

/-- Mirror of `workspace.rs` `check_and_get_program_paths`: compute the
binary, IDL and identity-key paths and fail naming the first missing one. -/
def check_and_get_program_paths (fs : FS) (config : Config) (program : String)
    (root : FPath) (deploy_version : Version) : Except Err ProgramPaths :=
  let program_bin_path := root ++ ["target", "deploy", program ++ ".so"]
  let program_idl_path := root ++ ["target", "idl", program ++ ".json"]
  let program_id_path := config.program_kp_path deploy_version program
  if ¬ fs.pathExists program_bin_path then
    .error (.binPathMissing program_bin_path)
  else if ¬ fs.pathExists program_idl_path then
    .error (.idlPathMissing program_idl_path)
  else if ¬ fs.pathExists program_id_path then
    .error (.idPathMissing program_id_path)
  else
    .ok ⟨program_bin_path, program_idl_path, program_id_path⟩

/-- Outcome of one `Command::output()` call: either the spawn itself
failed (`Err` from `output()`), or the child exited; `code = none` models
termination by signal, so `status.success()` is `code = some 0`. -/
inductive ExecOutcome
  | ioErr (msg : String)
  | exited (code : Option Nat)
deriving DecidableEq, Repr

/-- One spawned external command.  `writesTo` records the modelled effect
of the command on the filesystem: the destination file a successful `cp`
writes (`none` for every non-copy command). -/
structure Cmd where
  prog : String
  args : List String
  writesTo : Option FPath
deriving DecidableEq, Repr

/-- Terminal state of one invocation: `exitOk` is `Ok(())` from
`main_with_result` (process exit code 0 via `main`), `errExit e` is
`Err(e)` (message printed, process exit code 1), and `procExit c` is a
direct `std::process::exit(c)`. -/
inductive Outcome
  | exitOk
  | errExit (e : Err)
  | procExit (code : Nat)
deriving DecidableEq, Repr

/-- The process exit code produced by `main` for a terminal state. -/
def mainExitCode : Outcome → Nat
  | .exitOk => 0
  | .errExit _ => 1
  | .procExit c => c

/-- The ambient world of one invocation: filesystem, environment
variable, config discovery result, keypair-file reading, the generated
buffer keypair, and an oracle giving the outcome of the i-th spawned
subprocess. -/
structure World where
  fs : FS
  upgradeAuthorityKeypair : Option String
  discover : Option (Config × FPath)
  keypairAt : FPath → Option String
  bufferPubkey : String
  bufferTmpPath : FPath
  writeKeypairOk : Bool
  oracle : Nat → ExecOutcome

/-- Mutable state threaded through a run: spawned commands in order, the
printed log lines that carry meaning (decorative headers and the initial
debug echo are omitted), the filesystem, and the destinations written by
successful copies. -/
structure St where
  trace : List Cmd
  log : List String
  fs : FS
  writes : List FPath
deriving Repr

/-- Assembled result of a run. -/
structure RunResult where
  trace : List Cmd
  outcome : Outcome
  fs : FS
  log : List String
  writes : List FPath
deriving Repr

/-- Packaging of a final state with its outcome. -/
def mkRes (st : St) (o : Outcome) : RunResult :=
  ⟨st.trace, o, st.fs, st.log, st.writes⟩

/-- The state change of one successfully completed command: the modelled
`cp` effect on filesystem and write log. -/
def stepEffect (c : Cmd) (st : St) : St :=
  match c.writesTo with
  | none => st
  | some p => { st with fs := st.fs.addFile p, writes := st.writes ++ [p] }

/-- Pure effect of running a command list to completion: traces appended
in order and each step effect applied. -/
def applySteps : List Cmd → St → St
  | [], st => st
  | c :: cs, st => applySteps cs (stepEffect c { st with trace := st.trace ++ [c] })

/-- The repeated block of `main_with_result` (and `command.rs` `exec`):
spawn each command in order; an `output()` error propagates as `Err`
(exit code 1), a non-zero child aborts immediately via
`std::process::exit(code.unwrap_or(1))`, and only a zero exit continues
with the next step. -/
def runSteps (w : World) : List Cmd → St → (St → RunResult) → RunResult
  | [], st, k => k st
  | c :: cs, st, k =>
    let st1 : St := { st with trace := st.trace ++ [c] }
    match w.oracle st.trace.length with
    | .ioErr m => mkRes st1 (.errExit (.ioError m))
    | .exited code =>
      if code = some 0 then runSteps w cs (stepEffect c st1) k
      else mkRes st1 (.procExit (code.getD 1))

/-- The version resolution inlined in both branches of `main.rs`
(`main.rs:83-100` and `main.rs:287-304`): an explicit version is used
as-is, otherwise `root/programs/<program>/Cargo.toml` is parsed (this
revision has no hyphen fallback). -/
def mainResolveVersion (fs : FS) (root : FPath) (program : String) : Except Err Version :=
  match fs.manifestAt (root ++ ["programs", program, "Cargo.toml"]) with
  | none => .error .manifestNotFoundMain
  | some m =>
    match m.package with
    | none => .error .invalidPackage
    | some pkg =>
      match Version.parse pkg.version with
      | none => .error (.invalidVersion pkg.version)
      | some v => .ok v

/-- The `match version` block shared verbatim by the two `main.rs`
branches. -/
def resolveCliVersion (fs : FS) (root : FPath) (program : String) :
    Option Version → Except Err Version
  | some v => .ok v
  | none => mainResolveVersion fs root program

/-- Message printed by the deploy branch when the presence query
succeeds. -/
def alreadyDeployedMsg : String :=
  "Program already deployed. Use `fleet upgrade` if you want to upgrade the program."

/-- Message printed by the upgrade branch when the presence query fails. -/
def notDeployedMsg : String :=
  "Program does not exist. Use `fleet deploy` if you want to deploy the program for the first time."

/-- The seven abort-on-failure commands of the deploy branch
(`main.rs:167-271`), in source order. -/
def deployCmds (program_bin_path program_idl_path program_id_path deployer_path : FPath)
    (upgrade_authority program_key : String) (network : Network)
    (ap : ArtifactPaths) : List Cmd :=
  [ ⟨"solana", ["program", "deploy", pathStr program_bin_path,
      "--keypair", pathStr deployer_path,
      "--program-id", pathStr program_id_path], none⟩,
    ⟨"solana", ["program", "set-upgrade-authority", pathStr program_id_path,
      "--keypair", pathStr deployer_path,
      "--new-upgrade-authority", upgrade_authority], none⟩,
    ⟨"solana", ["program", "show", program_key], none⟩,
    ⟨"anchor", ["idl", "init", program_key,
      "--filepath", pathStr program_idl_path,
      "--provider.cluster", network.toString,
      "--provider.wallet", pathStr deployer_path], none⟩,
    ⟨"anchor", ["idl", "set-authority", "--program-id", program_key,
      "--new-authority", upgrade_authority,
      "--provider.cluster", network.toString,
      "--provider.wallet", pathStr deployer_path], none⟩,
    ⟨"cp", [pathStr program_bin_path, pathStr ap.bin], some ap.bin⟩,
    ⟨"cp", [pathStr program_idl_path, pathStr ap.idl], some ap.idl⟩ ]

/-- The `SubCommand::Deploy` branch of `main_with_result`
(`main.rs:76-274`). -/
def runDeploy (w : World) (version : Option Version) (program : String)
    (network : Network) : RunResult :=
  let st0 : St := ⟨[], [], w.fs, []⟩
  match w.discover with
  | none => mkRes st0 (.errExit .configNotFound)
  | some (config, root) =>
    match resolveCliVersion w.fs root program version with
    | .error e => mkRes st0 (.errExit e)
    | .ok deploy_version =>
      let st1 := { st0 with log := st0.log ++
        ["Deploying program " ++ program ++ " with version " ++ deploy_version.toString] }
      let program_bin_path := root ++ ["target", "deploy", program ++ ".so"]
      let program_idl_path := root ++ ["target", "idl", program ++ ".json"]
      let program_id_path := config.program_kp_path deploy_version program
      if ¬ w.fs.pathExists program_bin_path then
        mkRes st1 (.errExit (.binPathMissing program_bin_path))
      else if ¬ w.fs.pathExists program_idl_path then
        mkRes st1 (.errExit (.idlPathMissing program_idl_path))
      else if ¬ w.fs.pathExists program_id_path then
        mkRes st1 (.errExit (.idPathMissing program_id_path))
      else
        match config.network_config network with
        | .error e => mkRes st1 (.errExit e)
        | .ok network_cfg =>
          let deployer_path := network_cfg.deployer
          -- NOTE: main.rs:138-143 reports the *program id* path in this message.
          if ¬ w.fs.pathExists deployer_path then
            mkRes st1 (.errExit (.idPathMissing program_id_path))
          else
            let artifact_paths := config.artifact_paths deploy_version program
            let st2 := { st1 with fs := st1.fs.addDir artifact_paths.root }
            match w.keypairAt program_id_path with
            | none => mkRes st2 (.errExit (.keypairUnreadable program_id_path))
            | some program_key =>
              let st3 := { st2 with log := st2.log ++ ["Address: " ++ program_key] }
              let showCmd : Cmd := ⟨"solana", ["program", "show", program_key], none⟩
              let st4 := { st3 with trace := st3.trace ++ [showCmd] }
              match w.oracle st3.trace.length with
              | .ioErr m => mkRes st4 (.errExit (.ioError m))
              | .exited code =>
                if code = some 0 then
                  mkRes { st4 with log := st4.log ++ [alreadyDeployedMsg] }
                    (.procExit (code.getD 1))
                else
                  runSteps w
                    (deployCmds program_bin_path program_idl_path program_id_path
                      deployer_path network_cfg.upgrade_authority program_key
                      network artifact_paths)
                    st4
                    (fun st =>
                      mkRes { st with log := st.log ++ ["Deployment success!"] } .exitOk)

/-- The seven abort-on-failure commands of the upgrade branch
(`main.rs:383-495`), in source order. -/
def upgradeCmds (program_bin_path program_idl_path deployer_path : FPath)
    (upgrade_authority upgrade_authority_keypair program_key buffer_key : String)
    (bufferTmpPath : FPath) (network : Network) (ap : ArtifactPaths) : List Cmd :=
  [ ⟨"solana", ["program", "write-buffer", pathStr program_bin_path,
      "--keypair", pathStr deployer_path,
      "--output", "json",
      "--buffer", pathStr bufferTmpPath], none⟩,
    ⟨"solana", ["program", "set-buffer-authority", buffer_key,
      "--keypair", pathStr deployer_path,
      "--new-buffer-authority", upgrade_authority], none⟩,
    ⟨"solana", ["program", "deploy", "--buffer", buffer_key,
      "--keypair", upgrade_authority_keypair,
      "--program-id", program_key], none⟩,
    ⟨"solana", ["program", "show", program_key], none⟩,
    ⟨"anchor", ["idl", "write-buffer", program_key,
      "--filepath", pathStr program_idl_path,
      "--provider.cluster", network.toString,
      "--provider.wallet", pathStr deployer_path], none⟩,
    ⟨"cp", [pathStr program_bin_path, pathStr ap.bin], some ap.bin⟩,
    ⟨"cp", [pathStr program_idl_path, pathStr ap.idl], some ap.idl⟩ ]

/-- Rust drop semantics for the temporary buffer keypair file: the
`NamedTempFile` destructor removes the file when the stack unwinds (`Ok`
return or `Err` propagation), but `std::process::exit` terminates the
process without running destructors, so on every `procExit` path reached
after its creation the file persists. -/
def dropTmp (p : FPath) (r : RunResult) : RunResult :=
  match r.outcome with
  | .procExit _ => r
  | _ => { r with fs := r.fs.removeFile p }

/-- The `SubCommand::Upgrade` branch of `main_with_result`
(`main.rs:275-498`).  The scope of the `NamedTempFile` ends with the
match arm, which `dropTmp` models. -/
def runUpgrade (w : World) (version : Option Version) (program : String)
    (network : Network) : RunResult :=
  let st0 : St := ⟨[], [], w.fs, []⟩
  match w.upgradeAuthorityKeypair with
  | none => mkRes st0 (.errExit .mustSetUpgradeAuthority)
  | some upgrade_authority_keypair =>
    match w.discover with
    | none => mkRes st0 (.errExit .configNotFound)
    | some (config, root) =>
      match resolveCliVersion w.fs root program version with
      | .error e => mkRes st0 (.errExit e)
      | .ok deploy_version =>
        let st1 := { st0 with log := st0.log ++
          ["Deploying program " ++ program ++ " with version " ++ deploy_version.toString] }
        let program_bin_path := root ++ ["target", "deploy", program ++ ".so"]
        let program_idl_path := root ++ ["target", "idl", program ++ ".json"]
        let program_id_path := config.program_kp_path deploy_version program
        if ¬ w.fs.pathExists program_bin_path then
          mkRes st1 (.errExit (.binPathMissing program_bin_path))
        else if ¬ w.fs.pathExists program_idl_path then
          mkRes st1 (.errExit (.idlPathMissing program_idl_path))
        else if ¬ w.fs.pathExists program_id_path then
          mkRes st1 (.errExit (.idPathMissing program_id_path))
        else
          match config.network_config network with
          | .error e => mkRes st1 (.errExit e)
          | .ok network_cfg =>
            let deployer_path := network_cfg.deployer
            -- NOTE: main.rs:342-347 reports the *program id* path here too.
            if ¬ w.fs.pathExists deployer_path then
              mkRes st1 (.errExit (.idPathMissing program_id_path))
            else
              let artifact_paths := config.artifact_paths deploy_version program
              let st2 := { st1 with fs := st1.fs.addDir artifact_paths.root }
              if st2.fs.pathExists artifact_paths.bin ∨ st2.fs.pathExists artifact_paths.idl then
                mkRes st2 (.errExit .alreadyArchived)
              else
                match w.keypairAt program_id_path with
                | none => mkRes st2 (.errExit (.keypairUnreadable program_id_path))
                | some program_key =>
                  let st3 := { st2 with log := st2.log ++ ["Address: " ++ program_key] }
                  let showCmd : Cmd := ⟨"solana", ["program", "show", program_key], none⟩
                  let st4 := { st3 with trace := st3.trace ++ [showCmd] }
                  match w.oracle st3.trace.length with
                  | .ioErr m => mkRes st4 (.errExit (.ioError m))
                  | .exited code =>
                    if code = some 0 then
                      let buffer_key := w.bufferPubkey
                      let st5 := { st4 with log :=
                        st4.log ++ ["Buffer Pubkey: " ++ buffer_key] }
                      -- NamedTempFile::new() creates the temporary keypair file.
                      let st6 := { st5 with fs := st5.fs.addFile w.bufferTmpPath }
                      let r :=
                        if w.writeKeypairOk then
                          runSteps w
                            (upgradeCmds program_bin_path program_idl_path deployer_path
                              network_cfg.upgrade_authority upgrade_authority_keypair
                              program_key buffer_key w.bufferTmpPath network artifact_paths)
                            st6
                            (fun st =>
                              mkRes { st with log := st.log ++
                                ["WARNING: please manually run `anchor idl set-buffer "
                                    ++ program_key ++ " --buffer <BUFFER>`",
                                  "TODO: need to be able to hook into anchor for this",
                                  "Deployment success!"] } .exitOk)
                        else mkRes st6 (.errExit .writeKeypairFailed)
                      dropTmp w.bufferTmpPath r
                    else
                      mkRes { st4 with log := st4.log ++ [notDeployedMsg] }
                        (.procExit (code.getD 1))

/-! Concrete fixtures used by witnesses and counterexamples. -/

/-- A concrete network entry. -/
def ncfg0 : NetworkConfig :=
  { deployer := ["keys", "deployer.json"], upgrade_authority := "UA",
    url := none, ws_url := none }

/-- A concrete configuration whose artifacts path is the textual
`./.archive` from the specification example. -/
def cfg0 : Config :=
  { paths := { artifacts := parsePath "./.archive", program_keypairs := ["keys"] },
    networks := [(.devnet, ncfg0)] }

/-- The concrete version 1.2.0. -/
def v0 : Version := ⟨1, 2, 0, [], []⟩

/-- A concrete workspace root. -/
def root0 : FPath := ["work"]

/-- Expected binary path for program `token` under `root0`. -/
def bin0 : FPath := ["work", "target", "deploy", "token.so"]

/-- Expected IDL path for program `token` under `root0`. -/
def idl0 : FPath := ["work", "target", "idl", "token.json"]

/-- Expected identity-key path for program `token` at version `v0`. -/
def id0 : FPath := ["keys", "token-1.x.json"]

/-- A filesystem holding exactly the four required input files. -/
def fs0 : FS :=
  { files := [bin0, idl0, id0, ["keys", "deployer.json"]], dirs := [], manifests := [] }

/-- World builder over `fs0` and `cfg0` with a configurable oracle. -/
def mkWorld (fs : FS) (oracle : Nat → ExecOutcome) : World :=
  { fs := fs
    upgradeAuthorityKeypair := some "ua.json"
    discover := some (cfg0, root0)
    keypairAt := fun p => if p = id0 then some "PROGKEY" else none
    bufferPubkey := "BUFKEY"
    bufferTmpPath := ["tmp", "buf.json"]
    writeKeypairOk := true
    oracle := oracle }

/-- World in which the initial chain presence query exits with code 5 and
every later child succeeds. -/
def wShow5 : World :=
  mkWorld fs0 (fun n => if n = 0 then .exited (some 5) else .exited (some 0))

/-- World in which the program is absent on chain (presence query exits
1), the deploy step succeeds, and the set-upgrade-authority step exits
with code 7. -/
def wSua7 : World :=
  mkWorld fs0 (fun n =>
    if n = 0 then .exited (some 1)
    else if n = 2 then .exited (some 7)
    else .exited (some 0))

/-- World in which the program exists on chain and the write-buffer step
exits with code 7. -/
def wBufFail : World :=
  mkWorld fs0 (fun n =>
    if n = 0 then .exited (some 0)
    else if n = 1 then .exited (some 7)
    else .exited (some 0))

/-- World in which every spawned child succeeds. -/
def wAllOk : World := mkWorld fs0 (fun _ => .exited (some 0))

/-- World in which the program is absent on chain and everything else
succeeds (the fully successful deploy). -/
def wDeployOk : World :=
  mkWorld fs0 (fun n => if n = 0 then .exited (some 1) else .exited (some 0))

/-- The archived binary destination for `token` at version `1.2.0`. -/
def abin0 : FPath := (cfg0.artifact_paths v0 "token").bin

/-- The archived IDL destination for `token` at version `1.2.0`. -/
def aidl0 : FPath := (cfg0.artifact_paths v0 "token").idl

/-- Filesystem in which the archive already holds the binary for this
version. -/
def fsArchived : FS := { fs0 with files := fs0.files ++ [abin0] }

/-- Filesystem in which the archive already holds both destination files. -/
def fsArchivedBoth : FS := { fs0 with files := fs0.files ++ [abin0, aidl0] }

/-- Upgrade world over the already-archived filesystem. -/
def wArchived : World := mkWorld fsArchived (fun _ => .exited (some 0))

/-- Deploy world over the fully archived filesystem, program absent on
chain, all steps succeeding. -/
def wArchivedDeploy : World :=
  mkWorld fsArchivedBoth (fun n => if n = 0 then .exited (some 1) else .exited (some 0))

/-- World with the `UPGRADE_AUTHORITY_KEYPAIR` variable unset. -/
def wNoEnv : World :=
  { mkWorld fs0 (fun _ => .exited (some 0)) with upgradeAuthorityKeypair := none }

/-- Manifest fixture declaring version `1.2.3`. -/
def manifest123 : Manifest := { package := some { version := "1.2.3" } }

/-- Filesystem carrying a parseable manifest for program `token` under
`root0`. -/
def fsManifest : FS :=
  { files := [root0 ++ ["programs", "token", "Cargo.toml"]]
    dirs := []
    manifests := [(root0 ++ ["programs", "token", "Cargo.toml"], manifest123)] }

/-- Filesystem in which only the program binary is missing. -/
def fsNoBin : FS := { fs0 with files := [idl0, id0, ["keys", "deployer.json"]] }

/-! Helper lemmas about the step runner. -/

theorem mkRes_trace (st : St) (o : Outcome) : (mkRes st o).trace = st.trace := rfl

theorem mkRes_outcome (st : St) (o : Outcome) : (mkRes st o).outcome = o := rfl

theorem stepEffect_trace (c : Cmd) (st : St) : (stepEffect c st).trace = st.trace := by
  unfold stepEffect
  cases c.writesTo <;> rfl

/-- A continuation that spawns nothing (all of them here) keeps the trace
of the final step state. -/
theorem runSteps_trace_le (w : World) (k : St → RunResult)
    (hk : ∀ st, (k st).trace = st.trace) :
    ∀ (cmds : List Cmd) (st : St),
      (runSteps w cmds st k).trace.length ≤ st.trace.length + cmds.length := by
  intro cmds
  induction cmds with
  | nil =>
    intro st
    simp [runSteps, hk]
  | cons c cs ih =>
    intro st
    simp only [runSteps]
    split
    · simp only [mkRes_trace, List.length_append, List.length_cons, List.length_nil]
      omega
    · split
      · have h := ih (stepEffect c { st with trace := st.trace ++ [c] })
        rw [stepEffect_trace] at h
        simp only [List.length_append, List.length_cons, List.length_nil] at h ⊢
        omega
      · simp only [mkRes_trace, List.length_append, List.length_cons, List.length_nil]
        omega

/-- Every spawned command except possibly the last one got a zero exit
from the oracle. -/
theorem runSteps_prior (w : World) (k : St → RunResult)
    (hk : ∀ st, (k st).trace = st.trace) :
    ∀ (cmds : List Cmd) (st : St) (j : Nat),
      st.trace.length ≤ j →
      j + 1 < (runSteps w cmds st k).trace.length →
      w.oracle j = .exited (some 0) := by
  intro cmds
  induction cmds with
  | nil =>
    intro st j hj hlt
    rw [runSteps, hk] at hlt
    omega
  | cons c cs ih =>
    intro st j hj hlt
    simp only [runSteps] at hlt
    split at hlt
    · simp only [mkRes_trace, List.length_append, List.length_cons,
        List.length_nil] at hlt
      omega
    · next code heq =>
      split at hlt
      · next hc =>
        rcases Nat.eq_or_lt_of_le hj with he | hgt
        · rw [he] at heq
          rw [heq, hc]
        · refine ih _ j ?_ hlt
          rw [stepEffect_trace]
          simp only [List.length_append, List.length_cons, List.length_nil]
          omega
      · simp only [mkRes_trace, List.length_append, List.length_cons,
          List.length_nil] at hlt
        omega

/-- When all oracle answers before index `i` are zero exits and the one
at `i` is a non-zero exit, the runner stops right after command `i` with
the exact child exit code (`1` when the code is unobtainable). -/
theorem runSteps_abort (w : World) (k : St → RunResult) :
    ∀ (cmds : List Cmd) (st : St) (i : Nat) (c : Option Nat),
      st.trace.length ≤ i → i < st.trace.length + cmds.length →
      (∀ j, st.trace.length ≤ j → j < i → w.oracle j = .exited (some 0)) →
      w.oracle i = .exited c → c ≠ some 0 →
      (runSteps w cmds st k).outcome = .procExit (c.getD 1) ∧
        (runSteps w cmds st k).trace.length = i + 1 := by
  intro cmds
  induction cmds with
  | nil =>
    intro st i c h1 h2 _ _ _
    simp only [List.length_nil] at h2
    omega
  | cons c0 cs ih =>
    intro st i c h1 h2 hs hf hc
    simp only [runSteps]
    rcases Nat.eq_or_lt_of_le h1 with he | hgt
    · rw [← he] at hf
      split
      · next m heq =>
        rw [hf] at heq
        cases heq
      · next code heq =>
        rw [hf] at heq
        injection heq with hcd
        subst hcd
        rw [if_neg hc]
        refine ⟨rfl, ?_⟩
        simp only [mkRes_trace, List.length_append, List.length_cons, List.length_nil]
        omega
    · have h0 := hs _ le_rfl hgt
      split
      · next m heq =>
        rw [h0] at heq
        cases heq
      · next code heq =>
        rw [h0] at heq
        injection heq with hcd
        rw [← hcd, if_pos rfl]
        refine ih _ i c ?_ ?_ ?_ hf hc
        · rw [stepEffect_trace]
          simp only [List.length_append, List.length_cons, List.length_nil]
          omega
        · rw [stepEffect_trace]
          simp only [List.length_append, List.length_cons, List.length_nil] at h2 ⊢
          omega
        · intro j hj hji
          refine hs j ?_ hji
          rw [stepEffect_trace] at hj
          simp only [List.length_append, List.length_cons, List.length_nil] at hj
          omega

/-- When every oracle answer in range is a zero exit, the runner reaches
the continuation with the accumulated step effects. -/
theorem runSteps_success (w : World) (k : St → RunResult) :
    ∀ (cmds : List Cmd) (st : St),
      (∀ j, st.trace.length ≤ j → j < st.trace.length + cmds.length →
        w.oracle j = .exited (some 0)) →
      runSteps w cmds st k = k (applySteps cmds st) := by
  intro cmds
  induction cmds with
  | nil =>
    intro st _
    rfl
  | cons c cs ih =>
    intro st hs
    have h0 := hs _ le_rfl (by simp only [List.length_cons]; omega)
    simp only [runSteps, applySteps]
    split
    · next m heq =>
      rw [h0] at heq
      cases heq
    · next code heq =>
      rw [h0] at heq
      injection heq with hcd
      rw [← hcd, if_pos rfl]
      refine ih _ ?_
      intro j hj hj2
      rw [stepEffect_trace] at hj hj2
      simp only [List.length_append, List.length_cons, List.length_nil] at hj hj2
      refine hs j (by omega) ?_
      simp only [List.length_cons]
      omega

theorem dropTmp_outcome (p : FPath) (r : RunResult) : (dropTmp p r).outcome = r.outcome := by
  unfold dropTmp
  split
  · rfl
  · rfl

theorem dropTmp_trace (p : FPath) (r : RunResult) : (dropTmp p r).trace = r.trace := by
  unfold dropTmp
  split
  · rfl
  · rfl

theorem pathExists_addDir_iff (fs : FS) (p d : FPath) :
    (fs.addDir d).pathExists p ↔ fs.pathExists p ∨ p = d := by
  simp only [FS.pathExists, FS.addDir, List.mem_append, List.mem_singleton]
  tauto

theorem FS.pathExists_addDir {fs : FS} {p : FPath} (d : FPath) (h : fs.pathExists p) :
    (fs.addDir d).pathExists p := by
  rw [pathExists_addDir_iff]
  exact Or.inl h

theorem artifact_bin_ne_root (c : Config) (v : Version) (p : String) :
    (c.artifact_paths v p).bin ≠ (c.artifact_paths v p).root := by
  intro h
  have hlen := congrArg List.length h
  simp [Config.artifact_paths] at hlen

theorem artifact_idl_ne_root (c : Config) (v : Version) (p : String) :
    (c.artifact_paths v p).idl ≠ (c.artifact_paths v p).root := by
  intro h
  have hlen := congrArg List.length h
  simp [Config.artifact_paths] at hlen

/-- Composite of the runner lemmas: once it is known that the command at
index `i` was spawned (the final trace is longer than `i`) and that its
child exited non-zero, the whole runner result is the abort at `i`. -/
theorem runSteps_abort_reached (w : World) (k : St → RunResult)
    (hk : ∀ st, (k st).trace = st.trace) (cmds : List Cmd) (st : St)
    (i : Nat) (c : Option Nat)
    (hst : st.trace.length ≤ i)
    (hlen : i < (runSteps w cmds st k).trace.length)
    (hoc : w.oracle i = .exited c) (hc : c ≠ some 0) :
    (runSteps w cmds st k).outcome = .procExit (c.getD 1) ∧
      (runSteps w cmds st k).trace.length = i + 1 := by
  have hle := runSteps_trace_le w k hk cmds st
  have hpr : ∀ j, st.trace.length ≤ j → j < i → w.oracle j = .exited (some 0) := by
    intro j h1 h2
    exact runSteps_prior w k hk cmds st j h1 (by omega)
  exact runSteps_abort w k cmds st i c hst (by omega) hpr hoc hc

/-- C3: with an explicit version supplied, version resolution returns
exactly that version, performing no existence check and ignoring
whatever manifests are on disk (the filesystem is universally
quantified). -/
theorem explicit_version_trusted (fs : FS) (program : String) (root : FPath)
    (v : Version) :
    get_deploy_version fs program root (some v) = .ok v := rfl

/-- C9: artifact path computation takes no filesystem argument (so it can
perform no existence check) and always yields root
`<artifacts>/<program>/<version>` with `program.so` and `idl.json`
beneath it; on the configured textual artifacts path `./.archive`,
program `token` and version `1.2.0` the three computed paths denote
`.archive/token/1.2.0`, `.archive/token/1.2.0/program.so` and
`.archive/token/1.2.0/idl.json`. -/
theorem artifact_paths_shape :
    (∀ (c : Config) (v : Version) (program : String),
      (c.artifact_paths v program).root = c.paths.artifacts ++ [program, v.toString] ∧
      (c.artifact_paths v program).bin =
        c.paths.artifacts ++ [program, v.toString] ++ ["program.so"] ∧
      (c.artifact_paths v program).idl =
        c.paths.artifacts ++ [program, v.toString] ++ ["idl.json"]) ∧
    cfg0.paths.artifacts = parsePath "./.archive" ∧
    normalizePath (cfg0.artifact_paths v0 "token").root = [".archive", "token", "1.2.0"] ∧
    normalizePath (cfg0.artifact_paths v0 "token").bin =
      [".archive", "token", "1.2.0", "program.so"] ∧
    normalizePath (cfg0.artifact_paths v0 "token").idl =
      [".archive", "token", "1.2.0", "idl.json"] :=
  ⟨fun _ _ _ => ⟨rfl, rfl, rfl⟩, by decide, by decide, by decide, by decide⟩

/-- C4: with no explicit version, resolution reads the manifest at
`root/programs/<program>/Cargo.toml`, falling back to the hyphenated
program name when that file is absent; it returns the declared version
when it parses, and fails with the manifest-not-found, invalid-package
or invalid-version error otherwise. -/
theorem manifest_version_resolution (fs : FS) (program : String) (root : FPath) :
    (∀ m pkg v,
      fs.pathExists (root ++ ["programs", program, "Cargo.toml"]) →
      fs.manifestAt (root ++ ["programs", program, "Cargo.toml"]) = some m →
      m.package = some pkg →
      Version.parse pkg.version = some v →
      get_deploy_version fs program root none = .ok v) ∧
    (∀ m pkg v,
      ¬ fs.pathExists (root ++ ["programs", program, "Cargo.toml"]) →
      fs.manifestAt (root ++ ["programs", underscoreToHyphen program, "Cargo.toml"]) = some m →
      m.package = some pkg →
      Version.parse pkg.version = some v →
      get_deploy_version fs program root none = .ok v) ∧
    (fs.manifestAt (root ++ ["programs", program, "Cargo.toml"]) = none →
      fs.manifestAt (root ++ ["programs", underscoreToHyphen program, "Cargo.toml"]) = none →
      get_deploy_version fs program root none =
        .error (.manifestNotFound (root ++ ["programs", program, "Cargo.toml"])
          (if fs.pathExists (root ++ ["programs", program, "Cargo.toml"])
           then root ++ ["programs", program, "Cargo.toml"]
           else root ++ ["programs", underscoreToHyphen program, "Cargo.toml"]))) ∧
    (∀ m,
      fs.pathExists (root ++ ["programs", program, "Cargo.toml"]) →
      fs.manifestAt (root ++ ["programs", program, "Cargo.toml"]) = some m →
      m.package = none →
      get_deploy_version fs program root none = .error .invalidPackage) ∧
    (∀ m,
      ¬ fs.pathExists (root ++ ["programs", program, "Cargo.toml"]) →
      fs.manifestAt (root ++ ["programs", underscoreToHyphen program, "Cargo.toml"]) = some m →
      m.package = none →
      get_deploy_version fs program root none = .error .invalidPackage) ∧
    (∀ m pkg,
      fs.pathExists (root ++ ["programs", program, "Cargo.toml"]) →
      fs.manifestAt (root ++ ["programs", program, "Cargo.toml"]) = some m →
      m.package = some pkg →
      Version.parse pkg.version = none →
      get_deploy_version fs program root none = .error (.invalidVersion pkg.version)) ∧
    (∀ m pkg,
      ¬ fs.pathExists (root ++ ["programs", program, "Cargo.toml"]) →
      fs.manifestAt (root ++ ["programs", underscoreToHyphen program, "Cargo.toml"]) = some m →
      m.package = some pkg →
      Version.parse pkg.version = none →
      get_deploy_version fs program root none = .error (.invalidVersion pkg.version)) := by
  refine ⟨?_, ?_, ?_, ?_, ?_, ?_, ?_⟩
  · intro m pkg v hex hm hpkg hv
    simp [get_deploy_version, get_program_version, hex, hm, hpkg, hv]
  · intro m pkg v hex hm hpkg hv
    simp [get_deploy_version, get_program_version, hex, hm, hpkg, hv]
  · intro h1 h2
    by_cases hex : fs.pathExists (root ++ ["programs", program, "Cargo.toml"])
    · simp [get_deploy_version, get_program_version, hex, h1]
    · simp [get_deploy_version, get_program_version, hex, h2]
  · intro m hex hm hpkg
    simp [get_deploy_version, get_program_version, hex, hm, hpkg]
  · intro m hex hm hpkg
    simp [get_deploy_version, get_program_version, hex, hm, hpkg]
  · intro m pkg hex hm hpkg hv
    simp [get_deploy_version, get_program_version, hex, hm, hpkg, hv]
  · intro m pkg hex hm hpkg hv
    simp [get_deploy_version, get_program_version, hex, hm, hpkg, hv]

/-- C4 witness: a manifest declaring `1.2.3` resolves to version 1.2.3. -/
theorem manifest_version_resolution_witness :
    get_deploy_version fsManifest "token" root0 none = .ok ⟨1, 2, 3, [], []⟩ :=
  (manifest_version_resolution fsManifest "token" root0).1 manifest123 ⟨"1.2.3"⟩
    ⟨1, 2, 3, [], []⟩ (by decide) (by decide) rfl (by decide)

/-- C8: path checking computes the three expected paths and fails naming
exactly the first missing one — the binary-path message when the binary
is missing, the idl-path message when only the interface description is
missing, the id-path message when only the identity key is missing — and
on success returns exactly the computed paths, never substituted
defaults; the three messages are pairwise distinct formats each naming
the offending path. -/
theorem program_paths_discriminating_errors (fs : FS) (config : Config)
    (program : String) (root : FPath) (v : Version) :
    (¬ fs.pathExists (root ++ ["target", "deploy", program ++ ".so"]) →
      check_and_get_program_paths fs config program root v =
        .error (.binPathMissing (root ++ ["target", "deploy", program ++ ".so"]))) ∧
    (fs.pathExists (root ++ ["target", "deploy", program ++ ".so"]) →
      ¬ fs.pathExists (root ++ ["target", "idl", program ++ ".json"]) →
      check_and_get_program_paths fs config program root v =
        .error (.idlPathMissing (root ++ ["target", "idl", program ++ ".json"]))) ∧
    (fs.pathExists (root ++ ["target", "deploy", program ++ ".so"]) →
      fs.pathExists (root ++ ["target", "idl", program ++ ".json"]) →
      ¬ fs.pathExists (config.program_kp_path v program) →
      check_and_get_program_paths fs config program root v =
        .error (.idPathMissing (config.program_kp_path v program))) ∧
    (fs.pathExists (root ++ ["target", "deploy", program ++ ".so"]) →
      fs.pathExists (root ++ ["target", "idl", program ++ ".json"]) →
      fs.pathExists (config.program_kp_path v program) →
      check_and_get_program_paths fs config program root v =
        .ok ⟨root ++ ["target", "deploy", program ++ ".so"],
             root ++ ["target", "idl", program ++ ".json"],
             config.program_kp_path v program⟩) ∧
    (∀ p, Err.render (.binPathMissing p) =
      "Program bin path " ++ pathStr p ++ " does not exist") ∧
    (∀ p, Err.render (.idlPathMissing p) =
      "Program idl path " ++ pathStr p ++ " does not exist") ∧
    (∀ p, Err.render (.idPathMissing p) =
      "Program id path " ++ pathStr p ++ " does not exist") := by
  refine ⟨?_, ?_, ?_, ?_, fun _ => rfl, fun _ => rfl, fun _ => rfl⟩
  · intro h1
    simp [check_and_get_program_paths, h1]
  · intro h1 h2
    simp [check_and_get_program_paths, h1, h2]
  · intro h1 h2 h3
    simp [check_and_get_program_paths, h1, h2, h3]
  · intro h1 h2 h3
    simp [check_and_get_program_paths, h1, h2, h3]

/-- C8 witness: with only the binary missing, the binary path is the one
named. -/
theorem program_paths_discriminating_errors_witness :
    check_and_get_program_paths fsNoBin cfg0 "token" root0 v0 =
      .error (.binPathMissing ["work", "target", "deploy", "token.so"]) :=
  (program_paths_discriminating_errors fsNoBin cfg0 "token" root0 v0).1 (by decide)

/-- C6: an upgrade invocation without `UPGRADE_AUTHORITY_KEYPAIR` fails
at once with the descriptive message, spawns no subprocess, and the
process exit code is 1. -/
theorem upgrade_missing_env_guard (w : World) (version : Option Version)
    (program : String) (network : Network)
    (henv : w.upgradeAuthorityKeypair = none) :
    (runUpgrade w version program network).outcome = .errExit .mustSetUpgradeAuthority ∧
    (runUpgrade w version program network).trace = [] ∧
    mainExitCode (runUpgrade w version program network).outcome = 1 ∧
    Err.render .mustSetUpgradeAuthority =
      "Must set UPGRADE_AUTHORITY_KEYPAIR environment variable." := by
  simp [runUpgrade, henv, mkRes, mainExitCode, Err.render]

/-- C6 witness. -/
theorem upgrade_missing_env_guard_witness :
    (runUpgrade wNoEnv (some v0) "token" .devnet).trace = [] :=
  (upgrade_missing_env_guard wNoEnv (some v0) "token" .devnet rfl).2.1

/-- C7: when the initial chain presence query reports the program as
already deployed (the `solana program show` child succeeds), the deploy
run prints the already-deployed message, spawns no further subprocess,
and terminates with process exit code 0. -/
theorem deploy_already_deployed_short_circuit (w : World) (version : Option Version)
    (program : String) (network : Network) (config : Config) (root : FPath)
    (v : Version) (ncfg : NetworkConfig) (key : String)
    (hd : w.discover = some (config, root))
    (hv : resolveCliVersion w.fs root program version = .ok v)
    (hbin : w.fs.pathExists (root ++ ["target", "deploy", program ++ ".so"]))
    (hidl : w.fs.pathExists (root ++ ["target", "idl", program ++ ".json"]))
    (hid : w.fs.pathExists (config.program_kp_path v program))
    (hn : config.network_config network = .ok ncfg)
    (hdep : w.fs.pathExists ncfg.deployer)
    (hkey : w.keypairAt (config.program_kp_path v program) = some key)
    (hshow : w.oracle 0 = .exited (some 0)) :
    (runDeploy w version program network).outcome = .procExit 0 ∧
    mainExitCode (runDeploy w version program network).outcome = 0 ∧
    (runDeploy w version program network).trace =
      [⟨"solana", ["program", "show", key], none⟩] ∧
    alreadyDeployedMsg ∈ (runDeploy w version program network).log := by
  simp [runDeploy, hd, hv, hbin, hidl, hid, hn, hdep, hkey, hshow, mkRes, mainExitCode]

/-- C7 witness. -/
theorem deploy_already_deployed_short_circuit_witness :
    (runDeploy wAllOk (some v0) "token" .devnet).outcome = .procExit 0 ∧
    (runDeploy wAllOk (some v0) "token" .devnet).trace =
      [⟨"solana", ["program", "show", "PROGKEY"], none⟩] :=
  ⟨(deploy_already_deployed_short_circuit wAllOk (some v0) "token" .devnet cfg0 root0
      v0 ncfg0 "PROGKEY" rfl rfl (by decide) (by decide) (by decide) rfl
      (by decide) (by decide) rfl).1,
   (deploy_already_deployed_short_circuit wAllOk (some v0) "token" .devnet cfg0 root0
      v0 ncfg0 "PROGKEY" rfl rfl (by decide) (by decide) (by decide) rfl
      (by decide) (by decide) rfl).2.2.1⟩

/-- Helper: a deploy run whose presence query reports the program absent
and whose seven pipeline children all exit zero reaches the end: exit
state `Ok`, both artifacts copied, eight commands spawned. -/
theorem runDeploy_success (w : World) (version : Option Version) (program : String)
    (network : Network) (config : Config) (root : FPath) (v : Version)
    (ncfg : NetworkConfig) (key : String) (c0 : Option Nat)
    (hd : w.discover = some (config, root))
    (hv : resolveCliVersion w.fs root program version = .ok v)
    (hbin : w.fs.pathExists (root ++ ["target", "deploy", program ++ ".so"]))
    (hidl : w.fs.pathExists (root ++ ["target", "idl", program ++ ".json"]))
    (hid : w.fs.pathExists (config.program_kp_path v program))
    (hn : config.network_config network = .ok ncfg)
    (hdep : w.fs.pathExists ncfg.deployer)
    (hkey : w.keypairAt (config.program_kp_path v program) = some key)
    (hshow : w.oracle 0 = .exited c0) (hc0 : c0 ≠ some 0)
    (hsucc : ∀ j, 1 ≤ j → j ≤ 7 → w.oracle j = .exited (some 0)) :
    (runDeploy w version program network).outcome = .exitOk ∧
    (runDeploy w version program network).writes =
      [(config.artifact_paths v program).bin, (config.artifact_paths v program).idl] ∧
    (runDeploy w version program network).trace.length = 8 := by
  have h1 : runDeploy w version program network =
      runSteps w
        (deployCmds (root ++ ["target", "deploy", program ++ ".so"])
          (root ++ ["target", "idl", program ++ ".json"])
          (config.program_kp_path v program) ncfg.deployer ncfg.upgrade_authority key
          network (config.artifact_paths v program))
        ⟨[⟨"solana", ["program", "show", key], none⟩],
         ["Deploying program " ++ program ++ " with version " ++ v.toString,
          "Address: " ++ key],
         w.fs.addDir (config.artifact_paths v program).root, []⟩
        (fun st => mkRes { st with log := st.log ++ ["Deployment success!"] } .exitOk) := by
    simp [runDeploy, hd, hv, hbin, hidl, hid, hn, hdep, hkey, hshow, hc0]
  have h2 := runSteps_success w
      (fun st => mkRes { st with log := st.log ++ ["Deployment success!"] } .exitOk)
      (deployCmds (root ++ ["target", "deploy", program ++ ".so"])
        (root ++ ["target", "idl", program ++ ".json"])
        (config.program_kp_path v program) ncfg.deployer ncfg.upgrade_authority key
        network (config.artifact_paths v program))
      ⟨[⟨"solana", ["program", "show", key], none⟩],
       ["Deploying program " ++ program ++ " with version " ++ v.toString,
        "Address: " ++ key],
       w.fs.addDir (config.artifact_paths v program).root, []⟩
      (by
        intro j hj1 hj2
        simp [deployCmds] at hj1 hj2
        exact hsucc j hj1 (by omega))
  rw [h1, h2]
  simp [deployCmds, applySteps, stepEffect, mkRes]

/-- Helper: an upgrade run in which the program exists on chain, the
archive destination is fresh, and all seven pipeline children exit zero
reaches the end with exit state `Ok` and eight spawned commands. -/
theorem runUpgrade_success (w : World) (version : Option Version) (program : String)
    (network : Network) (config : Config) (root : FPath) (v : Version)
    (ncfg : NetworkConfig) (ua key : String)
    (henv : w.upgradeAuthorityKeypair = some ua)
    (hd : w.discover = some (config, root))
    (hv : resolveCliVersion w.fs root program version = .ok v)
    (hbin : w.fs.pathExists (root ++ ["target", "deploy", program ++ ".so"]))
    (hidl : w.fs.pathExists (root ++ ["target", "idl", program ++ ".json"]))
    (hid : w.fs.pathExists (config.program_kp_path v program))
    (hn : config.network_config network = .ok ncfg)
    (hdep : w.fs.pathExists ncfg.deployer)
    (hnb : ¬ w.fs.pathExists (config.artifact_paths v program).bin)
    (hni : ¬ w.fs.pathExists (config.artifact_paths v program).idl)
    (hkey : w.keypairAt (config.program_kp_path v program) = some key)
    (hshow : w.oracle 0 = .exited (some 0))
    (hwk : w.writeKeypairOk = true)
    (hsucc : ∀ j, 1 ≤ j → j ≤ 7 → w.oracle j = .exited (some 0)) :
    (runUpgrade w version program network).outcome = .exitOk ∧
    (runUpgrade w version program network).trace.length = 8 := by
  have hb2 : ¬ (w.fs.addDir (config.artifact_paths v program).root).pathExists
      (config.artifact_paths v program).bin := by
    rw [pathExists_addDir_iff]
    rintro (h | h)
    · exact hnb h
    · exact artifact_bin_ne_root _ _ _ h
  have hi2 : ¬ (w.fs.addDir (config.artifact_paths v program).root).pathExists
      (config.artifact_paths v program).idl := by
    rw [pathExists_addDir_iff]
    rintro (h | h)
    · exact hni h
    · exact artifact_idl_ne_root _ _ _ h
  have h1 : runUpgrade w version program network =
      dropTmp w.bufferTmpPath (runSteps w
        (upgradeCmds (root ++ ["target", "deploy", program ++ ".so"])
          (root ++ ["target", "idl", program ++ ".json"])
          ncfg.deployer ncfg.upgrade_authority ua key w.bufferPubkey
          w.bufferTmpPath network (config.artifact_paths v program))
        ⟨[⟨"solana", ["program", "show", key], none⟩],
         ["Deploying program " ++ program ++ " with version " ++ v.toString,
          "Address: " ++ key, "Buffer Pubkey: " ++ w.bufferPubkey],
         (w.fs.addDir (config.artifact_paths v program).root).addFile w.bufferTmpPath, []⟩
        (fun st => mkRes { st with log := st.log ++
          ["WARNING: please manually run `anchor idl set-buffer " ++ key
              ++ " --buffer <BUFFER>`",
            "TODO: need to be able to hook into anchor for this",
            "Deployment success!"] } .exitOk)) := by
    simp [runUpgrade, henv, hd, hv, hbin, hidl, hid, hn, hdep, hb2, hi2, hkey, hshow, hwk]
  have h2 := runSteps_success w
      (fun st => mkRes { st with log := st.log ++
        ["WARNING: please manually run `anchor idl set-buffer " ++ key
            ++ " --buffer <BUFFER>`",
          "TODO: need to be able to hook into anchor for this",
          "Deployment success!"] } .exitOk)
      (upgradeCmds (root ++ ["target", "deploy", program ++ ".so"])
        (root ++ ["target", "idl", program ++ ".json"])
        ncfg.deployer ncfg.upgrade_authority ua key w.bufferPubkey
        w.bufferTmpPath network (config.artifact_paths v program))
      ⟨[⟨"solana", ["program", "show", key], none⟩],
       ["Deploying program " ++ program ++ " with version " ++ v.toString,
        "Address: " ++ key, "Buffer Pubkey: " ++ w.bufferPubkey],
       (w.fs.addDir (config.artifact_paths v program).root).addFile w.bufferTmpPath, []⟩
      (by
        intro j hj1 hj2
        simp [upgradeCmds] at hj1 hj2
        exact hsucc j hj1 (by omega))
  rw [h1, h2]
  simp [upgradeCmds, applySteps, stepEffect, mkRes, dropTmp]

/-- C10: the already-archived guard belongs to the upgrade flow only:
even when both archive destination files for the resolved version
already exist, a deploy run performs no such check, proceeds to the end,
exits 0, and writes both destinations again (overwriting the archived
files). -/
theorem deploy_overwrites_archive (w : World) (version : Option Version)
    (program : String) (network : Network) (config : Config) (root : FPath)
    (v : Version) (ncfg : NetworkConfig) (key : String) (c0 : Option Nat)
    (hd : w.discover = some (config, root))
    (hv : resolveCliVersion w.fs root program version = .ok v)
    (hbin : w.fs.pathExists (root ++ ["target", "deploy", program ++ ".so"]))
    (hidl : w.fs.pathExists (root ++ ["target", "idl", program ++ ".json"]))
    (hid : w.fs.pathExists (config.program_kp_path v program))
    (hn : config.network_config network = .ok ncfg)
    (hdep : w.fs.pathExists ncfg.deployer)
    (hkey : w.keypairAt (config.program_kp_path v program) = some key)
    (hshow : w.oracle 0 = .exited c0) (hc0 : c0 ≠ some 0)
    (hsucc : ∀ j, 1 ≤ j → j ≤ 7 → w.oracle j = .exited (some 0))
    (_hexb : (config.artifact_paths v program).bin ∈ w.fs.files)
    (_hexi : (config.artifact_paths v program).idl ∈ w.fs.files) :
    (runDeploy w version program network).outcome = .exitOk ∧
    mainExitCode (runDeploy w version program network).outcome = 0 ∧
    (config.artifact_paths v program).bin ∈ (runDeploy w version program network).writes ∧
    (config.artifact_paths v program).idl ∈ (runDeploy w version program network).writes := by
  have h := runDeploy_success w version program network config root v ncfg key c0
    hd hv hbin hidl hid hn hdep hkey hshow hc0 hsucc
  refine ⟨h.1, ?_, ?_, ?_⟩
  · rw [h.1]
    rfl
  · rw [h.2.1]
    simp
  · rw [h.2.1]
    simp

/-- C10 witness: the archived files for version 1.2.0 are present, the
deploy run still succeeds and rewrites both. -/
theorem deploy_overwrites_archive_witness :
    (runDeploy wArchivedDeploy (some v0) "token" .devnet).outcome = .exitOk ∧
    abin0 ∈ (runDeploy wArchivedDeploy (some v0) "token" .devnet).writes :=
  ⟨(deploy_overwrites_archive wArchivedDeploy (some v0) "token" .devnet cfg0 root0
      v0 ncfg0 "PROGKEY" (some 1) rfl rfl (by decide) (by decide) (by decide) rfl
      (by decide) (by decide) rfl (by decide)
      (by intro j h1 h2; interval_cases j <;> rfl) (by decide) (by decide)).1,
   (deploy_overwrites_archive wArchivedDeploy (some v0) "token" .devnet cfg0 root0
      v0 ncfg0 "PROGKEY" (some 1) rfl rfl (by decide) (by decide) (by decide) rfl
      (by decide) (by decide) rfl (by decide)
      (by intro j h1 h2; interval_cases j <;> rfl) (by decide) (by decide)).2.2.1⟩

/-- C5: an upgrade run whose archive destination already holds either
file for the resolved version stops with the already-archived error
before spawning any subprocess, and the process exits 1. -/
theorem upgrade_already_archived_guard (w : World) (version : Option Version)
    (program : String) (network : Network) (config : Config) (root : FPath)
    (v : Version) (ncfg : NetworkConfig) (ua : String)
    (henv : w.upgradeAuthorityKeypair = some ua)
    (hd : w.discover = some (config, root))
    (hv : resolveCliVersion w.fs root program version = .ok v)
    (hbin : w.fs.pathExists (root ++ ["target", "deploy", program ++ ".so"]))
    (hidl : w.fs.pathExists (root ++ ["target", "idl", program ++ ".json"]))
    (hid : w.fs.pathExists (config.program_kp_path v program))
    (hn : config.network_config network = .ok ncfg)
    (hdep : w.fs.pathExists ncfg.deployer)
    (harch : w.fs.pathExists (config.artifact_paths v program).bin ∨
      w.fs.pathExists (config.artifact_paths v program).idl) :
    (runUpgrade w version program network).outcome = .errExit .alreadyArchived ∧
    (runUpgrade w version program network).trace = [] ∧
    mainExitCode (runUpgrade w version program network).outcome = 1 ∧
    Err.render .alreadyArchived =
      "Program artifacts already exist for this version. Make sure to bump your Cargo.toml." := by
  have hcond : (w.fs.addDir (config.artifact_paths v program).root).pathExists
      (config.artifact_paths v program).bin ∨
      (w.fs.addDir (config.artifact_paths v program).root).pathExists
        (config.artifact_paths v program).idl := by
    rcases harch with h | h
    · exact Or.inl (FS.pathExists_addDir _ h)
    · exact Or.inr (FS.pathExists_addDir _ h)
  simp [runUpgrade, henv, hd, hv, hbin, hidl, hid, hn, hdep, hcond, mkRes,
    mainExitCode, Err.render]

/-- C5 witness: with the archived binary already present, the upgrade
run fails before any subprocess. -/
theorem upgrade_already_archived_guard_witness :
    (runUpgrade wArchived (some v0) "token" .devnet).outcome =
      .errExit .alreadyArchived ∧
    (runUpgrade wArchived (some v0) "token" .devnet).trace = [] :=
  ⟨(upgrade_already_archived_guard wArchived (some v0) "token" .devnet cfg0 root0
      v0 ncfg0 "ua.json" rfl rfl rfl (by decide) (by decide) (by decide) rfl
      (by decide) (Or.inl (by decide))).1,
   (upgrade_already_archived_guard wArchived (some v0) "token" .devnet cfg0 root0
      v0 ncfg0 "ua.json" rfl rfl rfl (by decide) (by decide) (by decide) rfl
      (by decide) (Or.inl (by decide))).2.1⟩

/-- C2 (the code violates the claim): in a concrete upgrade run whose
write-buffer child exits with code 7, the process terminates through
`std::process::exit(7)`, which does not run the `NamedTempFile`
destructor, so the temporary buffer keypair file — absent before the run
— is still on disk in the final filesystem state. -/
theorem upgrade_tempfile_leak_on_subprocess_failure :
    (runUpgrade wBufFail (some v0) "token" .devnet).outcome = .procExit 7 ∧
    wBufFail.bufferTmpPath ∈ (runUpgrade wBufFail (some v0) "token" .devnet).fs.files ∧
    wBufFail.bufferTmpPath ∉ wBufFail.fs.files := by decide

/-- C1 counterexample: in this concrete deploy run the presence-query
child exits with the non-zero code 5, yet the run does not terminate
with code 5 — it continues, spawns all eight commands and exits 0 —
refuting the claim that any non-zero child exit aborts the run with that
code. -/
theorem deploy_show_failure_not_aborting :
    wShow5.oracle 0 = .exited (some 5) ∧
    (some 5 : Option Nat) ≠ some 0 ∧
    (runDeploy wShow5 (some v0) "token" .devnet).outcome = .exitOk ∧
    (runDeploy wShow5 (some v0) "token" .devnet).trace.length = 8 ∧
    mainExitCode (runDeploy wShow5 (some v0) "token" .devnet).outcome = 0 := by
  decide

/-- C1 amended: except for the initial chain presence query, any child
process exiting non-zero terminates the run immediately with that exact
exit code (1 when the code is unobtainable), skipping every later step
(in particular the interface-description and artifact-copy commands); in
upgrade the presence query itself also propagates its exit code, while
in deploy its non-zero exit means "not yet deployed" and the run
continues; every `Err` path exits 1 and a fully successful run exits 0. -/
theorem exit_code_propagation_amended :
    (∀ (w : World) (version : Option Version) (program : String) (network : Network)
        (i : Nat) (c : Option Nat),
      1 ≤ i → i < (runDeploy w version program network).trace.length →
      w.oracle i = .exited c → c ≠ some 0 →
      (runDeploy w version program network).outcome = .procExit (c.getD 1) ∧
        (runDeploy w version program network).trace.length = i + 1) ∧
    (∀ (w : World) (version : Option Version) (program : String) (network : Network)
        (i : Nat) (c : Option Nat),
      1 ≤ i → i < (runUpgrade w version program network).trace.length →
      w.oracle i = .exited c → c ≠ some 0 →
      (runUpgrade w version program network).outcome = .procExit (c.getD 1) ∧
        (runUpgrade w version program network).trace.length = i + 1) ∧
    (∀ (w : World) (version : Option Version) (program : String) (network : Network)
        (c : Option Nat),
      0 < (runUpgrade w version program network).trace.length →
      w.oracle 0 = .exited c → c ≠ some 0 →
      (runUpgrade w version program network).outcome = .procExit (c.getD 1) ∧
        (runUpgrade w version program network).trace.length = 1) ∧
    (∀ e, mainExitCode (.errExit e) = 1) ∧
    mainExitCode .exitOk = 0 ∧
    (∀ (w : World) (version : Option Version) (program : String) (network : Network)
        (config : Config) (root : FPath) (v : Version) (ncfg : NetworkConfig)
        (key : String) (c0 : Option Nat),
      w.discover = some (config, root) →
      resolveCliVersion w.fs root program version = .ok v →
      w.fs.pathExists (root ++ ["target", "deploy", program ++ ".so"]) →
      w.fs.pathExists (root ++ ["target", "idl", program ++ ".json"]) →
      w.fs.pathExists (config.program_kp_path v program) →
      config.network_config network = .ok ncfg →
      w.fs.pathExists ncfg.deployer →
      w.keypairAt (config.program_kp_path v program) = some key →
      w.oracle 0 = .exited c0 → c0 ≠ some 0 →
      (∀ j, 1 ≤ j → j ≤ 7 → w.oracle j = .exited (some 0)) →
      mainExitCode (runDeploy w version program network).outcome = 0) ∧
    (∀ (w : World) (version : Option Version) (program : String) (network : Network)
        (config : Config) (root : FPath) (v : Version) (ncfg : NetworkConfig)
        (ua key : String),
      w.upgradeAuthorityKeypair = some ua →
      w.discover = some (config, root) →
      resolveCliVersion w.fs root program version = .ok v →
      w.fs.pathExists (root ++ ["target", "deploy", program ++ ".so"]) →
      w.fs.pathExists (root ++ ["target", "idl", program ++ ".json"]) →
      w.fs.pathExists (config.program_kp_path v program) →
      config.network_config network = .ok ncfg →
      w.fs.pathExists ncfg.deployer →
      ¬ w.fs.pathExists (config.artifact_paths v program).bin →
      ¬ w.fs.pathExists (config.artifact_paths v program).idl →
      w.keypairAt (config.program_kp_path v program) = some key →
      w.oracle 0 = .exited (some 0) →
      w.writeKeypairOk = true →
      (∀ j, 1 ≤ j → j ≤ 7 → w.oracle j = .exited (some 0)) →
      mainExitCode (runUpgrade w version program network).outcome = 0) := by
  refine ⟨?_, ?_, ?_, fun _ => rfl, rfl, ?_, ?_⟩
  · -- deploy: abort propagation after the presence query
    intro w version program network i c hi hlen hoc hc
    rcases hd : w.discover with _ | ⟨config, root⟩
    · exact absurd (show i < 0 by simpa [runDeploy, hd, mkRes] using hlen)
        (Nat.not_lt_zero i)
    rcases hv : resolveCliVersion w.fs root program version with e | v
    · exact absurd (show i < 0 by simpa [runDeploy, hd, hv, mkRes] using hlen)
        (Nat.not_lt_zero i)
    by_cases hbin : w.fs.pathExists (root ++ ["target", "deploy", program ++ ".so"])
    case neg =>
      exact absurd (show i < 0 by simpa [runDeploy, hd, hv, hbin, mkRes] using hlen)
        (Nat.not_lt_zero i)
    by_cases hidl : w.fs.pathExists (root ++ ["target", "idl", program ++ ".json"])
    case neg =>
      exact absurd
        (show i < 0 by simpa [runDeploy, hd, hv, hbin, hidl, mkRes] using hlen)
        (Nat.not_lt_zero i)
    by_cases hid : w.fs.pathExists (config.program_kp_path v program)
    case neg =>
      exact absurd
        (show i < 0 by simpa [runDeploy, hd, hv, hbin, hidl, hid, mkRes] using hlen)
        (Nat.not_lt_zero i)
    rcases hn : config.network_config network with e | ncfg
    · exact absurd
        (show i < 0 by simpa [runDeploy, hd, hv, hbin, hidl, hid, hn, mkRes] using hlen)
        (Nat.not_lt_zero i)
    by_cases hdep : w.fs.pathExists ncfg.deployer
    case neg =>
      exact absurd
        (show i < 0 by
          simpa [runDeploy, hd, hv, hbin, hidl, hid, hn, hdep, mkRes] using hlen)
        (Nat.not_lt_zero i)
    rcases hkc : w.keypairAt (config.program_kp_path v program) with _ | key
    · exact absurd
        (show i < 0 by
          simpa [runDeploy, hd, hv, hbin, hidl, hid, hn, hdep, hkc, mkRes] using hlen)
        (Nat.not_lt_zero i)
    rcases ho : w.oracle 0 with m | code
    · exact absurd
        (show i < 1 by
          simpa [runDeploy, hd, hv, hbin, hidl, hid, hn, hdep, hkc, ho, mkRes]
            using hlen)
        (by omega)
    by_cases hcq : code = some 0
    case pos =>
      exact absurd
        (show i < 1 by
          simpa [runDeploy, hd, hv, hbin, hidl, hid, hn, hdep, hkc, ho, hcq, mkRes]
            using hlen)
        (by omega)
    have heq : runDeploy w version program network =
        runSteps w
          (deployCmds (root ++ ["target", "deploy", program ++ ".so"])
            (root ++ ["target", "idl", program ++ ".json"])
            (config.program_kp_path v program) ncfg.deployer ncfg.upgrade_authority key
            network (config.artifact_paths v program))
          ⟨[⟨"solana", ["program", "show", key], none⟩],
           ["Deploying program " ++ program ++ " with version " ++ v.toString,
            "Address: " ++ key],
           w.fs.addDir (config.artifact_paths v program).root, []⟩
          (fun st => mkRes { st with log := st.log ++ ["Deployment success!"] } .exitOk) := by
      simp [runDeploy, hd, hv, hbin, hidl, hid, hn, hdep, hkc, ho, hcq]
    rw [heq] at hlen ⊢
    exact runSteps_abort_reached w _ (fun _ => rfl) _ _ i c (by simp; omega) hlen hoc hc
  · -- upgrade: abort propagation after the presence query
    intro w version program network i c hi hlen hoc hc
    rcases henv : w.upgradeAuthorityKeypair with _ | ua
    · exact absurd (show i < 0 by simpa [runUpgrade, henv, mkRes] using hlen)
        (Nat.not_lt_zero i)
    rcases hd : w.discover with _ | ⟨config, root⟩
    · exact absurd (show i < 0 by simpa [runUpgrade, henv, hd, mkRes] using hlen)
        (Nat.not_lt_zero i)
    rcases hv : resolveCliVersion w.fs root program version with e | v
    · exact absurd (show i < 0 by simpa [runUpgrade, henv, hd, hv, mkRes] using hlen)
        (Nat.not_lt_zero i)
    by_cases hbin : w.fs.pathExists (root ++ ["target", "deploy", program ++ ".so"])
    case neg =>
      exact absurd
        (show i < 0 by simpa [runUpgrade, henv, hd, hv, hbin, mkRes] using hlen)
        (Nat.not_lt_zero i)
    by_cases hidl : w.fs.pathExists (root ++ ["target", "idl", program ++ ".json"])
    case neg =>
      exact absurd
        (show i < 0 by simpa [runUpgrade, henv, hd, hv, hbin, hidl, mkRes] using hlen)
        (Nat.not_lt_zero i)
    by_cases hid : w.fs.pathExists (config.program_kp_path v program)
    case neg =>
      exact absurd
        (show i < 0 by
          simpa [runUpgrade, henv, hd, hv, hbin, hidl, hid, mkRes] using hlen)
        (Nat.not_lt_zero i)
    rcases hn : config.network_config network with e | ncfg
    · exact absurd
        (show i < 0 by
          simpa [runUpgrade, henv, hd, hv, hbin, hidl, hid, hn, mkRes] using hlen)
        (Nat.not_lt_zero i)
    by_cases hdep : w.fs.pathExists ncfg.deployer
    case neg =>
      exact absurd
        (show i < 0 by
          simpa [runUpgrade, henv, hd, hv, hbin, hidl, hid, hn, hdep, mkRes] using hlen)
        (Nat.not_lt_zero i)
    by_cases harch :
      (w.fs.addDir (config.artifact_paths v program).root).pathExists
          (config.artifact_paths v program).bin ∨
        (w.fs.addDir (config.artifact_paths v program).root).pathExists
          (config.artifact_paths v program).idl
    case pos =>
      exact absurd
        (show i < 0 by
          simpa [runUpgrade, henv, hd, hv, hbin, hidl, hid, hn, hdep, harch, mkRes]
            using hlen)
        (Nat.not_lt_zero i)
    rcases hkc : w.keypairAt (config.program_kp_path v program) with _ | key
    · exact absurd
        (show i < 0 by
          simpa [runUpgrade, henv, hd, hv, hbin, hidl, hid, hn, hdep, harch, hkc,
            mkRes] using hlen)
        (Nat.not_lt_zero i)
    rcases ho : w.oracle 0 with m | code
    · exact absurd
        (show i < 1 by
          simpa [runUpgrade, henv, hd, hv, hbin, hidl, hid, hn, hdep, harch, hkc, ho,
            mkRes] using hlen)
        (by omega)
    by_cases hcq : code = some 0
    case neg =>
      exact absurd
        (show i < 1 by
          simpa [runUpgrade, henv, hd, hv, hbin, hidl, hid, hn, hdep, harch, hkc, ho,
            hcq, mkRes] using hlen)
        (by omega)
    by_cases hwk : w.writeKeypairOk
    case neg =>
      exact absurd
        (show i < 1 by
          simpa [runUpgrade, henv, hd, hv, hbin, hidl, hid, hn, hdep, harch, hkc, ho,
            hcq, hwk, dropTmp, mkRes] using hlen)
        (by omega)
    have heq : runUpgrade w version program network =
        dropTmp w.bufferTmpPath (runSteps w
          (upgradeCmds (root ++ ["target", "deploy", program ++ ".so"])
            (root ++ ["target", "idl", program ++ ".json"])
            ncfg.deployer ncfg.upgrade_authority ua key w.bufferPubkey
            w.bufferTmpPath network (config.artifact_paths v program))
          ⟨[⟨"solana", ["program", "show", key], none⟩],
           ["Deploying program " ++ program ++ " with version " ++ v.toString,
            "Address: " ++ key, "Buffer Pubkey: " ++ w.bufferPubkey],
           (w.fs.addDir (config.artifact_paths v program).root).addFile w.bufferTmpPath,
           []⟩
          (fun st => mkRes { st with log := st.log ++
            ["WARNING: please manually run `anchor idl set-buffer " ++ key
                ++ " --buffer <BUFFER>`",
              "TODO: need to be able to hook into anchor for this",
              "Deployment success!"] } .exitOk)) := by
      simp [runUpgrade, henv, hd, hv, hbin, hidl, hid, hn, hdep, harch, hkc, ho, hcq, hwk]
    rw [heq] at hlen ⊢
    rw [dropTmp_trace] at hlen
    rw [dropTmp_outcome, dropTmp_trace]
    exact runSteps_abort_reached w _ (fun _ => rfl) _ _ i c (by simp; omega) hlen hoc hc
  · -- upgrade: the presence query itself propagates a non-zero exit code
    intro w version program network c hlen hoc hc
    rcases henv : w.upgradeAuthorityKeypair with _ | ua
    · exact absurd (show (0 : Nat) < 0 by simpa [runUpgrade, henv, mkRes] using hlen)
        (Nat.lt_irrefl 0)
    rcases hd : w.discover with _ | ⟨config, root⟩
    · exact absurd (show (0 : Nat) < 0 by simpa [runUpgrade, henv, hd, mkRes] using hlen)
        (Nat.lt_irrefl 0)
    rcases hv : resolveCliVersion w.fs root program version with e | v
    · exact absurd
        (show (0 : Nat) < 0 by simpa [runUpgrade, henv, hd, hv, mkRes] using hlen)
        (Nat.lt_irrefl 0)
    by_cases hbin : w.fs.pathExists (root ++ ["target", "deploy", program ++ ".so"])
    case neg =>
      exact absurd
        (show (0 : Nat) < 0 by simpa [runUpgrade, henv, hd, hv, hbin, mkRes] using hlen)
        (Nat.lt_irrefl 0)
    by_cases hidl : w.fs.pathExists (root ++ ["target", "idl", program ++ ".json"])
    case neg =>
      exact absurd
        (show (0 : Nat) < 0 by
          simpa [runUpgrade, henv, hd, hv, hbin, hidl, mkRes] using hlen)
        (Nat.lt_irrefl 0)
    by_cases hid : w.fs.pathExists (config.program_kp_path v program)
    case neg =>
      exact absurd
        (show (0 : Nat) < 0 by
          simpa [runUpgrade, henv, hd, hv, hbin, hidl, hid, mkRes] using hlen)
        (Nat.lt_irrefl 0)
    rcases hn : config.network_config network with e | ncfg
    · exact absurd
        (show (0 : Nat) < 0 by
          simpa [runUpgrade, henv, hd, hv, hbin, hidl, hid, hn, mkRes] using hlen)
        (Nat.lt_irrefl 0)
    by_cases hdep : w.fs.pathExists ncfg.deployer
    case neg =>
      exact absurd
        (show (0 : Nat) < 0 by
          simpa [runUpgrade, henv, hd, hv, hbin, hidl, hid, hn, hdep, mkRes] using hlen)
        (Nat.lt_irrefl 0)
    by_cases harch :
      (w.fs.addDir (config.artifact_paths v program).root).pathExists
          (config.artifact_paths v program).bin ∨
        (w.fs.addDir (config.artifact_paths v program).root).pathExists
          (config.artifact_paths v program).idl
    case pos =>
      exact absurd
        (show (0 : Nat) < 0 by
          simpa [runUpgrade, henv, hd, hv, hbin, hidl, hid, hn, hdep, harch, mkRes]
            using hlen)
        (Nat.lt_irrefl 0)
    rcases hkc : w.keypairAt (config.program_kp_path v program) with _ | key
    · exact absurd
        (show (0 : Nat) < 0 by
          simpa [runUpgrade, henv, hd, hv, hbin, hidl, hid, hn, hdep, harch, hkc,
            mkRes] using hlen)
        (Nat.lt_irrefl 0)
    constructor
    · simp [runUpgrade, henv, hd, hv, hbin, hidl, hid, hn, hdep, harch, hkc, hoc, hc,
        mkRes]
    · simp [runUpgrade, henv, hd, hv, hbin, hidl, hid, hn, hdep, harch, hkc, hoc, hc,
        mkRes]
  · -- a fully successful deploy exits 0
    intro w version program network config root v ncfg key c0 hd hv hbin hidl hid hn
      hdep hkey hshow hc0 hsucc
    have h := runDeploy_success w version program network config root v ncfg key c0
      hd hv hbin hidl hid hn hdep hkey hshow hc0 hsucc
    rw [h.1]
    rfl
  · -- a fully successful upgrade exits 0
    intro w version program network config root v ncfg ua key henv hd hv hbin hidl hid
      hn hdep hnb hni hkey hshow hwk hsucc
    have h := runUpgrade_success w version program network config root v ncfg ua key
      henv hd hv hbin hidl hid hn hdep hnb hni hkey hshow hwk hsucc
    rw [h.1]
    rfl

/-- C1 witness (the set-upgrade-authority child failing with code 7
terminates the deploy run with exit code 7 after exactly three spawned
commands). -/
theorem exit_code_propagation_amended_witness :
    (runDeploy wSua7 (some v0) "token" .devnet).outcome = .procExit 7 ∧
    (runDeploy wSua7 (some v0) "token" .devnet).trace.length = 3 := by
  have h := exit_code_propagation_amended.1 wSua7 (some v0) "token" .devnet 2 (some 7)
    (by omega) (by decide) rfl (by decide)
  exact ⟨h.1, h.2⟩

end Captain
